import Mathlib

/-!
Verification development for the ref-based element resolution core of the
browse plugin (`src/plugins/browse/src/bb-browser.ts`).

Strings are modelled as lists of characters (`Str`), the two JS `Map`s
(`_refMap`, `roleCounts`, and the CDP `nodeMap`) as association lists with
JS `Map.set`/`Map.get` semantics, and the stateful snapshot walk as explicit
state passing.  The Playwright page is modelled as a list of live elements
with a role and an accessible name; `getByRole(role, {name, exact: false})`
becomes a filter by role equality and case-folded substring name match, and
a Playwright action on a locator position that matches no element is
modelled as a `timeout` error.
-/

namespace BrowsePlugin

/-- Strings as lists of characters. -/
abbrev Str := List Char

/-- Coerce a Lean string literal to the character-list representation. -/
def str (s : String) : Str := s.data

/-- JS `Map.get`: value of the first (unique) binding of a key. -/
def getAssoc {β : Type} : List (Str × β) → Str → Option β
  | [], _ => none
  | (k', v') :: rest, k => if k' = k then some v' else getAssoc rest k

/-- JS `Map.set`: replace the binding in place if present, else append. -/
def setAssoc {β : Type} : List (Str × β) → Str → β → List (Str × β)
  | [], k, v => [(k, v)]
  | (k', v') :: rest, k, v =>
      if k' = k then (k, v) :: rest else (k', v') :: setAssoc rest k v

/-- Entry of `_refMap` (interface `RefEntry` in the source). -/
structure RefEntry where
  role : Str
  name : Str
  index : Nat
deriving DecidableEq, Repr

/-- The tri-state `checked` attribute (`boolean | 'mixed'`). -/
inductive Checked where
  | bool (b : Bool)
  | mixed
deriving DecidableEq, Repr

/-- Canonical accessibility node (interface `AXNode` in the source). -/
inductive AXNode where
  | mk (role : Str) (name : Str) (value : Option Str) (checked : Option Checked)
       (disabled : Bool) (focused : Bool) (children : List AXNode)

/-- Role of a canonical node. -/
def AXNode.role : AXNode → Str
  | .mk r _ _ _ _ _ _ => r

/-- Name of a canonical node. -/
def AXNode.name : AXNode → Str
  | .mk _ n _ _ _ _ _ => n

/-- Value of a canonical node. -/
def AXNode.value : AXNode → Option Str
  | .mk _ _ v _ _ _ _ => v

/-- Checked state of a canonical node. -/
def AXNode.checked : AXNode → Option Checked
  | .mk _ _ _ c _ _ _ => c

/-- Disabled flag of a canonical node. -/
def AXNode.disabled : AXNode → Bool
  | .mk _ _ _ _ d _ _ => d

/-- Focused flag of a canonical node. -/
def AXNode.focused : AXNode → Bool
  | .mk _ _ _ _ _ f _ => f

/-- Children of a canonical node. -/
def AXNode.children : AXNode → List AXNode
  | .mk _ _ _ _ _ _ c => c

/-- The `INTERACTIVE_ROLES` set from the source. -/
def INTERACTIVE_ROLES : List Str :=
  [str "link", str "button", str "textbox", str "checkbox", str "radio",
   str "combobox", str "listbox", str "menuitem", str "menuitemcheckbox",
   str "menuitemradio", str "option", str "searchbox", str "slider",
   str "spinbutton", str "switch", str "tab", str "treeitem"]

/-- Function `isInteractive` from the source. -/
def isInteractive (role : Str) : Bool := decide (role ∈ INTERACTIVE_ROLES)

/-- Ref token for sequence number `n`: the string `0-n`. -/
def refToken (n : Nat) : Str := '0' :: '-' :: (Nat.repr n).data

/-- Role key used by the disambiguation counter: `role + "::" + name`. -/
def roleKey (role name : Str) : Str := role ++ str "::" ++ name

/-- JS `String(checked)` rendering of the tri-state. -/
def checkedStr : Checked → Str
  | .bool true => str "true"
  | .bool false => str "false"
  | .mixed => str "mixed"

/-- One display line of the snapshot, as assembled inside `buildRefTree`. -/
def nodeLine (role name : Str) (value : Option Str) (checked : Option Checked)
    (disabled focused : Bool) (ref : Str) (depth : Nat) : Str :=
  let parts : List Str :=
    (if isInteractive role then [('[' :: ref) ++ [']']] else [])
    ++ [role]
    ++ (if name = [] then [] else [('"' :: name) ++ ['"']])
    ++ (match value with
        | none => []
        | some v => if v = [] then [] else [str "value=" ++ ('"' :: v) ++ ['"']])
    ++ (match checked with
        | none => []
        | some c => [str "checked=" ++ checkedStr c])
    ++ (if disabled then [str "disabled"] else [])
    ++ (if focused then [str "focused"] else [])
  List.replicate (2 * depth) ' ' ++ List.intercalate [' '] parts

/-- Mutable state threaded through `buildRefTree`'s walk: the output lines,
the `_refMap` contents in insertion order, the `roleCounts` map, and `refIdx`. -/
structure WalkState where
  lines : List Str
  entries : List (Str × RefEntry)
  roleCounts : List (Str × Nat)
  refIdx : Nat
deriving DecidableEq, Repr

/-- The per-node body of `walk`: assign the ref, bump the role counter,
record the `_refMap` entry and emit the display line. -/
def visitNode (role name : Str) (value : Option Str) (checked : Option Checked)
    (disabled focused : Bool) (depth : Nat) (s : WalkState) : WalkState :=
  let ref := refToken s.refIdx
  let key := roleKey role name
  let count := (getAssoc s.roleCounts key).getD 0
  { lines := s.lines ++ [nodeLine role name value checked disabled focused ref depth]
    entries := s.entries ++ [(ref, ⟨role, name, count⟩)]
    roleCounts := setAssoc s.roleCounts key (count + 1)
    refIdx := s.refIdx + 1 }

mutual

/-- Function `walk` inside `buildRefTree`: visit a node, then its children. -/
def walk : AXNode → Nat → WalkState → WalkState
  | .mk role name value checked disabled focused children, depth, s =>
      walkList children (depth + 1)
        (visitNode role name value checked disabled focused depth s)

/-- Walk a list of children in order, threading the state. -/
def walkList : List AXNode → Nat → WalkState → WalkState
  | [], _, s => s
  | c :: cs, depth, s => walkList cs depth (walk c depth s)

end

/-- The initial walk state: `_refMap.clear()`, empty lines and counters. -/
def initState : WalkState := ⟨[], [], [], 0⟩

/-- Function `buildRefTree` from the source: returns the joined snapshot text
and the rebuilt `_refMap` contents (which the source keeps as a side effect). -/
def buildRefTree (root : AXNode) : Str × List (Str × RefEntry) :=
  let s := walk root 0 initState
  (List.intercalate ['\n'] s.lines, s.entries)

/-- A JS value appearing in a CDP AX property (string or boolean). -/
inductive PropVal where
  | str (s : Str)
  | bool (b : Bool)
deriving DecidableEq, Repr

/-- JS truthiness of a property value (`Boolean(v)`). -/
def truthy : PropVal → Bool
  | .str s => decide (s ≠ [])
  | .bool b => b

/-- JS strict equality with the literal `'mixed'`. -/
def isMixed : PropVal → Bool
  | .str s => decide (s = str "mixed")
  | .bool _ => false

/-- Raw CDP accessibility node (interface `CDPAXNode` in the source);
optional fields that the conversion never reads are omitted. -/
structure CDPAXNode where
  nodeId : Str
  role : Option Str
  name : Option Str
  value : Option Str
  properties : List (Str × PropVal)
  childIds : List Str
  ignored : Bool
deriving DecidableEq, Repr

/-- The `SKIP_ROLES` set inside `cdpNodesToTree`. -/
def SKIP_ROLES : List Str :=
  [str "none", str "generic", str "InlineTextBox", str "LineBreak", str "StaticText"]

/-- The property-extraction loop of `convert`: last assignment wins; the
`checked` slot keeps `false` once assigned, the boolean slots only matter
when their final value is truthy (mirroring `if (disabled) node.disabled = …`). -/
def extractProps (props : List (Str × PropVal)) : Option Checked × Bool × Bool :=
  props.foldl
    (fun acc p =>
      if p.1 = str "checked" then
        (some (if isMixed p.2 then Checked.mixed else Checked.bool (truthy p.2)),
         acc.2.1, acc.2.2)
      else if p.1 = str "disabled" then (acc.1, truthy p.2, acc.2.2)
      else if p.1 = str "focused" then (acc.1, acc.2.1, truthy p.2)
      else acc)
    (none, false, false)

/-- The `nodeMap` built at the start of `cdpNodesToTree`. -/
def buildNodeMap (ns : List CDPAXNode) : List (Str × CDPAXNode) :=
  ns.foldl (fun m n => setAssoc m n.nodeId n) []

/-- Result of eliding a structural-noise node in compact mode, as a function
of its surviving children (the inline `if/return` chain of `convert`):
splice out a single child, drop the node with no children, or relabel as a
neutral `group` node keeping two or more children. -/
def compactFold (children : List AXNode) : Option AXNode :=
  match children with
  | [c] => some c
  | [] => none
  | cs => some (AXNode.mk (str "group") [] none none false false cs)

/-- The recursive `convert` inside `cdpNodesToTree`.  The source recurses
through `nodeMap` lookups, which terminates only on acyclic input; the
embedding makes the recursion depth explicit with a fuel parameter (the
caller supplies more fuel than any acyclic input can consume). -/
def convert (nodeMap : List (Str × CDPAXNode)) (compact : Bool) :
    Nat → CDPAXNode → Option AXNode
  | 0, _ => none
  | fuel + 1, cdpNode =>
    if cdpNode.ignored then none
    else
      let role := cdpNode.role.getD (str "unknown")
      let name := cdpNode.name.getD []
      let children := cdpNode.childIds.filterMap
        (fun cid => (getAssoc nodeMap cid).bind (convert nodeMap compact fuel))
      if compact ∧ role ∈ SKIP_ROLES ∧ name = [] then
        compactFold children
      else
        let props := extractProps cdpNode.properties
        let value : Option Str :=
          match cdpNode.value with
          | none => none
          | some v => if v = [] then none else some v
        some (AXNode.mk role name value props.1 props.2.1 props.2.2 children)

/-- Function `cdpNodesToTree` from the source: convert the flat CDP node
array into a canonical tree rooted at the first node. -/
def cdpNodesToTree (cdpNodes : List CDPAXNode) (compact : Bool) : Option AXNode :=
  match cdpNodes with
  | [] => none
  | root :: _ => convert (buildNodeMap cdpNodes) compact (cdpNodes.length + 1) root

/-- Structured rendering of the errors raised by the resolution core:
`refNotFound` for `Unknown ref …  Run browser_snapshot first`, and
`elementNotFound` for `No element found for ref … (role=…, name=…)`.
`timeout` stands for a Playwright action timing out because the chosen
locator position matches no element. -/
inductive BrowseError where
  | refNotFound (ref : Str)
  | elementNotFound (ref : Str) (role : Str) (name : Str)
  | timeout
deriving DecidableEq, Repr

/-- The prefix stripping `ref.replace(/^[@]|^ref=/i, '')` in `resolveRef`:
drop one leading `@`, else one leading case-insensitive `ref=`. -/
def cleanRef (r : Str) : Str :=
  if r.take 1 = ['@'] then r.drop 1
  else if (r.take 4).map Char.toLower = str "ref=" then r.drop 4
  else r

/-- Function `resolveRef` from the source. -/
def resolveRef (m : List (Str × RefEntry)) (ref : Str) : Except BrowseError RefEntry :=
  match getAssoc m (cleanRef ref) with
  | some e => .ok e
  | none => .error (.refNotFound ref)

/-- One live element of the current page, as seen by `page.getByRole`. -/
structure LiveElem where
  role : Str
  name : Str
deriving DecidableEq, Repr

/-- Case folding used by the non-exact accessible-name match. -/
def foldCase (s : Str) : Str := s.map Char.toLower

/-- Substring test: `needle` occurs contiguously in `hay`. -/
def containsSub (needle hay : Str) : Bool :=
  (List.range (hay.length + 1)).any (fun i => (hay.drop i).take needle.length = needle)

/-- Playwright's `{ name, exact: false }` semantics: case-insensitive
substring match of the stored name in the live accessible name. -/
def nameMatch (stored live : Str) : Bool := containsSub (foldCase stored) (foldCase live)

/-- The locator `page.getByRole(entry.role, { name: entry.name, exact: false })`,
as the list of live elements it matches, in page order. -/
def getByRole (page : List LiveElem) (role name : Str) : List LiveElem :=
  page.filter (fun e => decide (e.role = role) && nameMatch name e.name)

/-- Function `clickByRef` from the source; the result is the position, among
the current matches, of the element the click is dispatched to. -/
def clickByRef (m : List (Str × RefEntry)) (page : List LiveElem) (ref : Str) :
    Except BrowseError Nat :=
  match resolveRef m ref with
  | .error e => .error e
  | .ok entry =>
    let count := (getByRole page entry.role entry.name).length
    if count = 0 then .error (.elementNotFound ref entry.role entry.name)
    else if 0 < entry.index ∧ entry.index < count then .ok entry.index
    else .ok 0

/-- Function `fillByRef` from the source: no zero-match check and no
index-range check — the target is `nth(index)` whenever `index > 0`, else
`first()`, and acting on a position with no element times out.  The result
is the position of the element the fill is applied to; the value and
`pressEnter` are forwarded to external Playwright calls. -/
def fillByRef (m : List (Str × RefEntry)) (page : List LiveElem) (ref : Str)
    (value : Str) (pressEnter : Bool) : Except BrowseError Nat :=
  match resolveRef m ref with
  | .error e => .error e
  | .ok entry =>
    let count := (getByRole page entry.role entry.name).length
    let target := if 0 < entry.index then entry.index else 0
    if target < count then .ok target else .error .timeout

/-- Function `selectByRef` from the source: same target choice as `fillByRef`. -/
def selectByRef (m : List (Str × RefEntry)) (page : List LiveElem) (ref : Str)
    (values : List Str) : Except BrowseError Nat :=
  match resolveRef m ref with
  | .error e => .error e
  | .ok entry =>
    let count := (getByRole page entry.role entry.name).length
    let target := if 0 < entry.index then entry.index else 0
    if target < count then .ok target else .error .timeout

/-- Function `bbSnapshot` from the source, with the `_refMap` state made
explicit: on a null tree it returns `(empty page)` and leaves the previous
map untouched; otherwise `buildRefTree` clears and rebuilds it. -/
def bbSnapshot (cdpNodes : List CDPAXNode) (compact : Bool)
    (prevMap : List (Str × RefEntry)) : Str × List (Str × RefEntry) :=
  match cdpNodesToTree cdpNodes compact with
  | none => (str "(empty page)", prevMap)
  | some tree => buildRefTree tree

/-! ### Specification-level views of the data -/

mutual

/-- Number of nodes of a canonical tree. -/
def sizeT : AXNode → Nat
  | .mk _ _ _ _ _ _ children => 1 + sizeF children

/-- Number of nodes of a forest. -/
def sizeF : List AXNode → Nat
  | [] => 0
  | c :: cs => sizeT c + sizeF cs

end

mutual

/-- Pre-order list of `(role, name)` pairs of a canonical tree. -/
def rnT : AXNode → List (Str × Str)
  | .mk role name _ _ _ _ children => (role, name) :: rnF children

/-- Pre-order list of `(role, name)` pairs of a forest. -/
def rnF : List AXNode → List (Str × Str)
  | [] => []
  | c :: cs => rnT c ++ rnF cs

end

/-- The `(role, name)` view of one `_refMap` binding. -/
def rnOf (p : Str × RefEntry) : Str × Str := (p.2.role, p.2.name)

/-- Role key of a stored entry. -/
def keyOf (e : RefEntry) : Str := roleKey e.role e.name

/-- Number of stored entries whose role key is `key`. -/
def tallyKey (es : List (Str × RefEntry)) (key : Str) : Nat :=
  (es.filter (fun p => decide (keyOf p.2 = key))).length

/-- The role counters agree with the tally of the recorded entries. -/
def CountsOK (s : WalkState) : Prop :=
  ∀ key, (getAssoc s.roleCounts key).getD 0 = tallyKey s.entries key

/-- Every recorded entry's disambiguation index counts the earlier entries
with the same role key. -/
def EntriesOK (es : List (Str × RefEntry)) : Prop :=
  ∀ i (h : i < es.length),
    (es.get ⟨i, h⟩).2.index = tallyKey (es.take i) (keyOf (es.get ⟨i, h⟩).2)

/-- Combined walk invariant. -/
def InvS (s : WalkState) : Prop := CountsOK s ∧ EntriesOK s.entries

/-- Interactive sublist of a `(role, name)` sequence. -/
def iOfRN (l : List (Str × Str)) : List (Str × Str) :=
  l.filter (fun p => isInteractive p.1)

/-- Interactive `(role, name)` pairs contributed by an optional tree. -/
def iRNopt : Option AXNode → List (Str × Str)
  | none => []
  | some t => iOfRN (rnT t)

/-- Interactive `(role, name)` pairs recorded in a `_refMap`, in order. -/
def interactiveRN (es : List (Str × RefEntry)) : List (Str × Str) :=
  iOfRN (es.map rnOf)

/-- Ref tokens of the `_refMap` entries whose stored role is interactive. -/
def interactiveTokens (es : List (Str × RefEntry)) : List Str :=
  (es.filter (fun p => isInteractive p.2.role)).map Prod.fst

/-- Number of stored entries with the given exact `(role, name)` pair. -/
def countRN (es : List (Str × RefEntry)) (role name : Str) : Nat :=
  (es.filter (fun p => decide (p.2.role = role ∧ p.2.name = name))).length

/-- The eight case variants of the `ref=` prefix accepted by the
case-insensitive regex. -/
def refPrefixForms : List Str :=
  [str "ref=", str "Ref=", str "rEf=", str "reF=",
   str "REf=", str "ReF=", str "rEF=", str "REF="]

/-! ### Concrete inputs used by the examples -/

/-- The raw node list of the end-to-end example: a root with a generic
wrapper around a button, plus an empty static-text node. -/
def c1nodes : List CDPAXNode :=
  [⟨str "1", some (str "RootWebArea"), some (str "Example"), none, [],
    [str "2", str "3"], false⟩,
   ⟨str "2", some (str "generic"), none, none, [], [str "4"], false⟩,
   ⟨str "4", some (str "button"), some (str "Go"), none, [], [], false⟩,
   ⟨str "3", some (str "StaticText"), some [], none, [], [], false⟩]

/-- The canonical tree the example normalizes to in compact mode. -/
def c1tree : AXNode :=
  .mk (str "RootWebArea") (str "Example") none none false false
    [.mk (str "button") (str "Go") none none false false []]

/-- A root with a generic wrapper around button `A`, then button `B`:
compaction shifts the pre-order position of both buttons. -/
def c4nodes : List CDPAXNode :=
  [⟨str "1", some (str "RootWebArea"), none, none, [], [str "2", str "5"], false⟩,
   ⟨str "2", some (str "generic"), none, none, [], [str "3"], false⟩,
   ⟨str "3", some (str "button"), some (str "A"), none, [], [], false⟩,
   ⟨str "5", some (str "button"), some (str "B"), none, [], [], false⟩]

/-- Two distinct `(role, name)` pairs whose role keys collide:
`a::b + :: + ""` and `a + :: + b::` are the same string. -/
def colTree : AXNode :=
  .mk (str "x") [] none none false false
    [.mk (str "a::b") [] none none false false [],
     .mk (str "a") (str "b::") none none false false []]

/-- Three sibling `Save` buttons under one root. -/
def saveTree : AXNode :=
  .mk (str "RootWebArea") (str "Form") none none false false
    [.mk (str "button") (str "Save") none none false false [],
     .mk (str "button") (str "Save") none none false false [],
     .mk (str "button") (str "Save") none none false false []]

/-- A one-entry table whose element has disappeared from the page. -/
def c2map : List (Str × RefEntry) := [(str "0-0", ⟨str "button", str "Go", 0⟩)]

/-- A table entry with disambiguation index 2. -/
def c3map : List (Str × RefEntry) := [(str "0-0", ⟨str "button", str "Save", 2⟩)]

/-- A live page with a single matching `Save` button. -/
def c3page : List LiveElem := [⟨str "button", str "Save"⟩]

/-- A stale previous table used to check rebuild independence. -/
def c5prev : List (Str × RefEntry) := [(str "9-9", ⟨str "x", [], 0⟩)]

/-- The node map of the end-to-end example. -/
def c6map : List (Str × CDPAXNode) := buildNodeMap c1nodes

/-- The generic wrapper node of the end-to-end example. -/
def c6gen : CDPAXNode := ⟨str "2", some (str "generic"), none, none, [], [str "4"], false⟩

/-! ### Association-list lemmas -/

/-- Appending one entry changes a tally by one exactly at its role key. -/
theorem tallyKey_append (es : List (Str × RefEntry)) (p : Str × RefEntry) (key : Str) :
    tallyKey (es ++ [p]) key
      = tallyKey es key + (if keyOf p.2 = key then 1 else 0) := by
  simp only [tallyKey, List.filter_append, List.length_append]
  by_cases h : keyOf p.2 = key
  · simp [h]
  · simp [h]

theorem getAssoc_setAssoc {β : Type} (m : List (Str × β)) (k k' : Str) (v : β) :
    getAssoc (setAssoc m k v) k' = if k = k' then some v else getAssoc m k' := by
  induction m with
  | nil => simp [setAssoc, getAssoc]
  | cons p rest ih =>
    obtain ⟨pk, pv⟩ := p
    simp only [setAssoc]
    by_cases hpk : pk = k
    · subst hpk
      simp only [if_pos rfl, getAssoc]
      by_cases h : pk = k'
      · simp [h]
      · simp [h]
    · simp only [if_neg hpk]
      by_cases h : pk = k'
      · subst h
        have hk : ¬ (k = pk) := fun hh => hpk hh.symm
        simp [getAssoc, hk]
      · simp [getAssoc, h, ih]

theorem getAssoc_isSome_of_mem {β : Type} (m : List (Str × β)) (key : Str)
    (h : key ∈ m.map Prod.fst) : ∃ v, getAssoc m key = some v := by
  induction m with
  | nil => simp at h
  | cons p rest ih =>
    obtain ⟨pk, pv⟩ := p
    by_cases hk : pk = key
    · exact ⟨pv, by simp [getAssoc, hk]⟩
    · have h' : key ∈ pk :: rest.map Prod.fst := by
        rw [List.map_cons] at h
        exact h
      have hmem : key ∈ rest.map Prod.fst := by
        rcases List.mem_cons.mp h' with h1 | h1
        · exact absurd h1.symm hk
        · exact h1
      obtain ⟨v, hv⟩ := ih hmem
      exact ⟨v, by simp [getAssoc, hk, hv]⟩

/-! ### Shape of the snapshot walk -/

theorem visitNode_entries (role name : Str) (value : Option Str)
    (checked : Option Checked) (disabled focused : Bool) (depth : Nat) (s : WalkState) :
    (visitNode role name value checked disabled focused depth s).entries
      = s.entries
        ++ [(refToken s.refIdx,
             ⟨role, name, (getAssoc s.roleCounts (roleKey role name)).getD 0⟩)] := rfl

theorem visitNode_refIdx (role name : Str) (value : Option Str)
    (checked : Option Checked) (disabled focused : Bool) (depth : Nat) (s : WalkState) :
    (visitNode role name value checked disabled focused depth s).refIdx
      = s.refIdx + 1 := rfl

theorem visitNode_lines (role name : Str) (value : Option Str)
    (checked : Option Checked) (disabled focused : Bool) (depth : Nat) (s : WalkState) :
    (visitNode role name value checked disabled focused depth s).lines
      = s.lines ++ [nodeLine role name value checked disabled focused
                      (refToken s.refIdx) depth] := rfl

mutual

theorem walk_shape (t : AXNode) (d : Nat) (s : WalkState) :
    (walk t d s).entries.map Prod.fst
        = s.entries.map Prod.fst ++ (List.range' s.refIdx (sizeT t)).map refToken
    ∧ (walk t d s).entries.map rnOf = s.entries.map rnOf ++ rnT t
    ∧ (walk t d s).refIdx = s.refIdx + sizeT t
    ∧ (walk t d s).lines.length = s.lines.length + sizeT t := by
  cases t with
  | mk role name value checked disabled focused children =>
    have hw : walk (.mk role name value checked disabled focused children) d s
        = walkList children (d + 1)
            (visitNode role name value checked disabled focused d s) := by
      simp [walk]
    have hrec := walkList_shape children (d + 1)
      (visitNode role name value checked disabled focused d s)
    obtain ⟨h1, h2, h3, h4⟩ := hrec
    rw [hw]
    refine ⟨?_, ?_, ?_, ?_⟩
    · rw [h1, visitNode_entries, visitNode_refIdx]
      have hr : List.range' s.refIdx (sizeT (.mk role name value checked disabled focused children))
          = s.refIdx :: List.range' (s.refIdx + 1) (sizeF children) := by
        have := List.range'_succ s.refIdx (sizeF children) 1
        simp [sizeT, Nat.add_comm 1 (sizeF children)] at this ⊢
        exact this
      rw [hr]
      simp
    · rw [h2, visitNode_entries]
      simp [rnT, rnOf]
    · rw [h3, visitNode_refIdx]
      simp only [sizeT]
      omega
    · rw [h4, visitNode_lines]
      simp only [sizeT, List.length_append, List.length_singleton]
      omega

theorem walkList_shape (l : List AXNode) (d : Nat) (s : WalkState) :
    (walkList l d s).entries.map Prod.fst
        = s.entries.map Prod.fst ++ (List.range' s.refIdx (sizeF l)).map refToken
    ∧ (walkList l d s).entries.map rnOf = s.entries.map rnOf ++ rnF l
    ∧ (walkList l d s).refIdx = s.refIdx + sizeF l
    ∧ (walkList l d s).lines.length = s.lines.length + sizeF l := by
  cases l with
  | nil => simp [walkList, sizeF, rnF]
  | cons c cs =>
    have hw : walkList (c :: cs) d s = walkList cs d (walk c d s) := by
      simp [walkList]
    obtain ⟨g1, g2, g3, g4⟩ := walk_shape c d s
    obtain ⟨h1, h2, h3, h4⟩ := walkList_shape cs d (walk c d s)
    rw [hw]
    refine ⟨?_, ?_, ?_, ?_⟩
    · rw [h1, g1, g3]
      have hr : (List.range' s.refIdx (sizeT c)).map refToken
            ++ (List.range' (s.refIdx + sizeT c) (sizeF cs)).map refToken
          = (List.range' s.refIdx (sizeF (c :: cs))).map refToken := by
        rw [← List.map_append]
        congr 1
        simp only [sizeF]
        rw [Nat.add_comm (sizeT c) (sizeF cs)]
        simpa using List.range'_append s.refIdx (sizeT c) (sizeF cs) 1
      rw [← hr]
      simp
    · rw [h2, g2]
      simp [rnF]
    · rw [h3, g3]
      simp only [sizeF]
      omega
    · rw [h4, g4]
      simp only [sizeF]
      omega

end

/-- Projection of the walk step: the updated role counters. -/
theorem visitNode_roleCounts (role name : Str) (value : Option Str)
    (checked : Option Checked) (disabled focused : Bool) (depth : Nat) (s : WalkState) :
    (visitNode role name value checked disabled focused depth s).roleCounts
      = setAssoc s.roleCounts (roleKey role name)
          ((getAssoc s.roleCounts (roleKey role name)).getD 0 + 1) := rfl

/-- Extending a per-entry-correct list with an entry whose index is the
current tally of its role key keeps it correct. -/
theorem entriesOK_append (es : List (Str × RefEntry)) (tok : Str) (role name : Str)
    (he : EntriesOK es) :
    EntriesOK (es ++ [(tok, ⟨role, name, tallyKey es (roleKey role name)⟩)]) := by
  intro i h
  have hlen : (es ++ [(tok, (⟨role, name, tallyKey es (roleKey role name)⟩ : RefEntry))]).length
      = es.length + 1 := by simp
  by_cases hi : i < es.length
  · have hget : (es ++ [(tok, (⟨role, name, tallyKey es (roleKey role name)⟩ : RefEntry))]).get ⟨i, h⟩
        = es.get ⟨i, hi⟩ := by
      simp [List.get_eq_getElem, List.getElem_append_left hi]
    have htake : (es ++ [(tok, (⟨role, name, tallyKey es (roleKey role name)⟩ : RefEntry))]).take i
        = es.take i := List.take_append_of_le_length (Nat.le_of_lt hi)
    rw [hget, htake]
    exact he i hi
  · have hieq : i = es.length := by omega
    subst hieq
    have hget : (es ++ [(tok, (⟨role, name, tallyKey es (roleKey role name)⟩ : RefEntry))]).get ⟨es.length, h⟩
        = (tok, (⟨role, name, tallyKey es (roleKey role name)⟩ : RefEntry)) := by
      simp
    have htake : (es ++ [(tok, (⟨role, name, tallyKey es (roleKey role name)⟩ : RefEntry))]).take es.length
        = es := by simp
    rw [hget, htake]
    rfl

/-- One walk step preserves the invariant. -/
theorem visit_inv (role name : Str) (value : Option Str) (checked : Option Checked)
    (disabled focused : Bool) (depth : Nat) (s : WalkState) (h : InvS s) :
    InvS (visitNode role name value checked disabled focused depth s) := by
  obtain ⟨hc, he⟩ := h
  constructor
  · intro key
    rw [visitNode_roleCounts]
    show (getAssoc (setAssoc s.roleCounts (roleKey role name) _) key).getD 0
      = tallyKey (visitNode role name value checked disabled focused depth s).entries key
    rw [getAssoc_setAssoc, visitNode_entries, tallyKey_append]
    by_cases hk : roleKey role name = key
    · rw [if_pos hk]
      have : keyOf (⟨role, name, (getAssoc s.roleCounts (roleKey role name)).getD 0⟩ : RefEntry)
          = key := hk
      rw [if_pos this, ← hk, hc (roleKey role name)]
      simp
    · rw [if_neg hk]
      have : ¬ keyOf (⟨role, name, (getAssoc s.roleCounts (roleKey role name)).getD 0⟩ : RefEntry)
          = key := hk
      rw [if_neg this, hc key]
      simp
  · show EntriesOK (visitNode role name value checked disabled focused depth s).entries
    rw [visitNode_entries, hc (roleKey role name)]
    exact entriesOK_append s.entries (refToken s.refIdx) role name he

mutual

theorem walk_inv (t : AXNode) (d : Nat) (s : WalkState) (h : InvS s) :
    InvS (walk t d s) := by
  cases t with
  | mk role name value checked disabled focused children =>
    have hw : walk (.mk role name value checked disabled focused children) d s
        = walkList children (d + 1)
            (visitNode role name value checked disabled focused d s) := by
      simp [walk]
    rw [hw]
    exact walkList_inv children (d + 1) _
      (visit_inv role name value checked disabled focused d s h)

theorem walkList_inv (l : List AXNode) (d : Nat) (s : WalkState) (h : InvS s) :
    InvS (walkList l d s) := by
  cases l with
  | nil => simpa [walkList] using h
  | cons c cs =>
    have hw : walkList (c :: cs) d s = walkList cs d (walk c d s) := by
      simp [walkList]
    rw [hw]
    exact walkList_inv cs d _ (walk_inv c d s h)

end

/-- The initial walk state satisfies the invariant. -/
theorem initState_inv : InvS initState := by
  constructor
  · intro key
    simp [initState, getAssoc, tallyKey]
  · intro i h
    simp [initState] at h

/-- The `_refMap` produced by `buildRefTree` satisfies the per-entry
tally property. -/
theorem buildRefTree_entriesOK (t : AXNode) : EntriesOK (buildRefTree t).2 :=
  (walk_inv t 0 initState initState_inv).2

/-- The `(role, name)` pairs recorded by `buildRefTree`, in order, are the
pre-order `(role, name)` pairs of the tree. -/
theorem buildRefTree_rn (t : AXNode) : (buildRefTree t).2.map rnOf = rnT t := by
  have h := (walk_shape t 0 initState).2.1
  simpa [initState, buildRefTree] using h

/-- The ref tokens recorded by `buildRefTree`, in order, are `0-0 … 0-(n-1)`. -/
theorem buildRefTree_tokens (t : AXNode) :
    (buildRefTree t).2.map Prod.fst = (List.range (sizeT t)).map refToken := by
  have h := (walk_shape t 0 initState).1
  rw [List.range_eq_range']
  simpa [initState, buildRefTree] using h

/-- `buildRefTree` records one entry per node of the tree. -/
theorem buildRefTree_length (t : AXNode) : (buildRefTree t).2.length = sizeT t := by
  have h := buildRefTree_tokens t
  have := congrArg List.length h
  simpa using this

/-- `buildRefTree` emits one display line per node of the tree. -/
theorem buildRefTree_linesLength (t : AXNode) :
    (walk t 0 initState).lines.length = sizeT t := by
  have h := (walk_shape t 0 initState).2.2.2
  simpa [initState] using h

/-! ### Compaction and interactive content -/

theorem iOfRN_append (a b : List (Str × Str)) : iOfRN (a ++ b) = iOfRN a ++ iOfRN b :=
  List.filter_append a b

theorem skip_not_interactive (r : Str) (h : r ∈ SKIP_ROLES) : isInteractive r = false := by
  simp only [SKIP_ROLES, List.mem_cons, List.not_mem_nil, or_false] at h
  rcases h with h | h | h | h | h <;> subst h <;> decide

theorem group_not_interactive : isInteractive (str "group") = false := by decide

/-- Children converted in compact and in full mode contribute the same
interactive `(role, name)` sequence, assuming it for each node at the
previous fuel level. -/
theorem childList_iRN (m : List (Str × CDPAXNode)) (f : Nat)
    (ih : ∀ n, iRNopt (convert m true f n) = iRNopt (convert m false f n))
    (cids : List Str) :
    iOfRN (rnF (cids.filterMap (fun cid => (getAssoc m cid).bind (convert m true f))))
      = iOfRN (rnF (cids.filterMap (fun cid => (getAssoc m cid).bind (convert m false f)))) := by
  induction cids with
  | nil => rfl
  | cons cid rest ihc =>
    simp only [List.filterMap_cons]
    cases hga : getAssoc m cid with
    | none => simpa using ihc
    | some cnode =>
      have hkey := ih cnode
      simp only [Option.some_bind]
      cases ht : convert m true f cnode with
      | none =>
        cases hf : convert m false f cnode with
        | none => simpa using ihc
        | some tf =>
          have hz : iOfRN (rnT tf) = [] := by
            rw [ht, hf] at hkey
            simpa [iRNopt] using hkey.symm
          simp only [rnF, iOfRN_append, hz, List.nil_append]
          exact ihc
      | some tt =>
        cases hf : convert m false f cnode with
        | none =>
          have hz : iOfRN (rnT tt) = [] := by
            rw [ht, hf] at hkey
            simpa [iRNopt] using hkey
          simp only [rnF, iOfRN_append, hz, List.nil_append]
          exact ihc
        | some tf =>
          have hzz : iOfRN (rnT tt) = iOfRN (rnT tf) := by
            rw [ht, hf] at hkey
            simpa [iRNopt] using hkey
          simp only [rnF, iOfRN_append, hzz]
          rw [ihc]

/-- The compact elision step contributes exactly the interactive content of
the surviving children. -/
theorem compactFold_iRN (cs : List AXNode) :
    iRNopt (compactFold cs) = iOfRN (rnF cs) := by
  match cs with
  | [] => rfl
  | [c] => simp [compactFold, iRNopt, rnF]
  | a :: b :: rest =>
    simp [compactFold, iRNopt, rnT, iOfRN, List.filter_cons, group_not_interactive]

/-- Compact and full conversion of the same raw node produce the same
interactive `(role, name)` sequence. -/
theorem convert_iRN (m : List (Str × CDPAXNode)) :
    ∀ (fuel : Nat) (n : CDPAXNode),
      iRNopt (convert m true fuel n) = iRNopt (convert m false fuel n) := by
  intro fuel
  induction fuel with
  | zero => intro n; rfl
  | succ f ih =>
    intro n
    by_cases hig : n.ignored
    · simp [convert, hig, iRNopt]
    · have hch := childList_iRN m f ih n.childIds
      simp only [convert, hig, Bool.false_eq_true, ite_false, if_neg]
      by_cases hskip : (n.role.getD (str "unknown")) ∈ SKIP_ROLES ∧ (n.name.getD []) = []
      · rw [if_pos (by exact ⟨trivial, hskip.1, hskip.2⟩),
            if_neg (fun hc => by simpa using hc.1)]
        have hnotint := skip_not_interactive _ hskip.1
        rw [compactFold_iRN, hch]
        simp [iRNopt, rnT, iOfRN, List.filter_cons, hnotint]
      · rw [if_neg (fun hc => hskip ⟨hc.2.1, hc.2.2⟩),
            if_neg (fun hc => by simpa using hc.1)]
        simp only [iRNopt, rnT, iOfRN, List.filter_cons]
        simp only [iOfRN] at hch
        rw [hch]

/-! ### Prefix stripping and resolution -/

theorem cleanRef_at (t : Str) : cleanRef ('@' :: t) = t := by
  unfold cleanRef
  rw [if_pos (show ('@' :: t).take 1 = ['@'] from rfl)]
  rfl

theorem cleanRef_cons4 (c1 c2 c3 : Char) (t : Str) (h1 : c1 ≠ '@')
    (h2 : Char.toLower c1 = 'r') (h3 : Char.toLower c2 = 'e')
    (h4 : Char.toLower c3 = 'f') :
    cleanRef (c1 :: c2 :: c3 :: '=' :: t) = t := by
  unfold cleanRef
  have ht1 : (c1 :: c2 :: c3 :: '=' :: t).take 1 = [c1] := rfl
  have ht4 : ((c1 :: c2 :: c3 :: '=' :: t).take 4).map Char.toLower = str "ref=" := by
    have h5 : (c1 :: c2 :: c3 :: '=' :: t).take 4 = [c1, c2, c3, '='] := rfl
    rw [h5]
    simp only [List.map_cons, List.map_nil, h2, h3, h4]
    decide
  rw [if_neg (by
    intro hcc
    rw [ht1] at hcc
    exact h1 (List.cons.inj hcc).1)]
  rw [if_pos ht4]
  rfl

theorem cleanRef_refPrefix (p t : Str) (hp : p ∈ refPrefixForms) :
    cleanRef (p ++ t) = t := by
  simp only [refPrefixForms, List.mem_cons, List.not_mem_nil, or_false] at hp
  rcases hp with h | h | h | h | h | h | h | h <;> subst h <;>
    exact cleanRef_cons4 _ _ _ t (by decide) (by decide) (by decide) (by decide)

theorem cleanRef_bare (k : Nat) : cleanRef (refToken k) = refToken k := by
  unfold cleanRef refToken
  rw [if_neg (by
    intro hcc
    rw [show ('0' :: '-' :: (Nat.repr k).data).take 1 = ['0'] from rfl] at hcc
    exact absurd (List.cons.inj hcc).1 (by decide))]
  rw [if_neg (by
    intro hcc
    have hh := congrArg List.head? hcc
    rw [show ((('0' :: '-' :: (Nat.repr k).data).take 4).map Char.toLower).head?
        = some '0' from rfl] at hh
    rw [show (str "ref=").head? = some 'r' from rfl] at hh
    exact absurd (Option.some.inj hh) (by decide))]

theorem resolveRef_err (m : List (Str × RefEntry)) (r : Str) :
    resolveRef m r = .error (.refNotFound r) ↔ getAssoc m (cleanRef r) = none := by
  unfold resolveRef
  cases h : getAssoc m (cleanRef r) <;> simp

theorem resolveRef_ok (m : List (Str × RefEntry)) (r : Str) (e : RefEntry) :
    resolveRef m r = .ok e ↔ getAssoc m (cleanRef r) = some e := by
  unfold resolveRef
  cases h : getAssoc m (cleanRef r) <;> simp

/-! ### Snapshot operation lemmas -/

theorem cdpNodesToTree_cons (r : CDPAXNode) (rest : List CDPAXNode) (compact : Bool) :
    cdpNodesToTree (r :: rest) compact
      = convert (buildNodeMap (r :: rest)) compact ((r :: rest).length + 1) r := rfl

theorem bbSnapshot_none (nodes : List CDPAXNode) (compact : Bool)
    (prev : List (Str × RefEntry)) (h : cdpNodesToTree nodes compact = none) :
    bbSnapshot nodes compact prev = (str "(empty page)", prev) := by
  simp [bbSnapshot, h]

theorem bbSnapshot_some (nodes : List CDPAXNode) (compact : Bool)
    (prev : List (Str × RefEntry)) (t : AXNode)
    (h : cdpNodesToTree nodes compact = some t) :
    bbSnapshot nodes compact prev = buildRefTree t := by
  simp [bbSnapshot, h]

theorem interactiveRN_buildRefTree (t : AXNode) :
    interactiveRN (buildRefTree t).2 = iOfRN (rnT t) := by
  unfold interactiveRN
  rw [buildRefTree_rn]

/-! ### Claims -/

/-- C1 counterexample: on the end-to-end example input, the rebuilt
`_refMap` holds two entries (`0-0` for the root, `0-1` for the button),
not the single entry the claim asserts. -/
theorem c1_counterexample :
    (bbSnapshot c1nodes true []).2.length = 2
    ∧ (bbSnapshot c1nodes true []).2.map Prod.fst = [str "0-0", str "0-1"] :=
  ⟨rfl, rfl⟩

/-- C1 amended: the compact pipeline on the example input produces exactly
the two output lines `RootWebArea "Example"` and `  [0-1] button "Go"`,
and a ref table with two entries — token `0-0` for the root and token
`0-1` for the button (the button's token is `0-1` as claimed). -/
theorem c1_amended :
    (bbSnapshot c1nodes true []).1
        = str "RootWebArea \"Example\"\n  [0-1] button \"Go\""
    ∧ (bbSnapshot c1nodes true []).2
        = [(str "0-0", ⟨str "RootWebArea", str "Example", 0⟩),
           (str "0-1", ⟨str "button", str "Go", 0⟩)] :=
  ⟨rfl, rfl⟩

/-- C2 counterexample: with a resolvable ref whose stored `(role, name)`
matches zero live elements, `fillByRef` fails with a generic Playwright
timeout, not with the element-not-found error naming ref, role and name. -/
theorem c2_counterexample :
    fillByRef c2map [] (str "0-0") (str "x") true = .error .timeout
    ∧ fillByRef c2map [] (str "0-0") (str "x") true
        ≠ .error (.elementNotFound (str "0-0") (str "button") (str "Go")) :=
  ⟨rfl, fun h => by
    have h' : (Except.error BrowseError.timeout : Except BrowseError Nat)
        = .error (.elementNotFound (str "0-0") (str "button") (str "Go")) := h
    exact absurd (Except.error.inj h') (by decide)⟩

/-- C2 amended: when the stored `(role, name)` matches zero live elements,
only `clickByRef` fails with the element-not-found error naming the ref,
role and name; `fillByRef` and `selectByRef` do not count matches and
instead act on an empty locator, failing with a generic timeout. -/
theorem c2_amended (m : List (Str × RefEntry)) (page : List LiveElem) (ref : Str)
    (entry : RefEntry) (hres : resolveRef m ref = .ok entry)
    (hzero : getByRole page entry.role entry.name = []) :
    clickByRef m page ref = .error (.elementNotFound ref entry.role entry.name)
    ∧ (∀ v pe, fillByRef m page ref v pe = .error .timeout)
    ∧ (∀ vs, selectByRef m page ref vs = .error .timeout) := by
  refine ⟨?_, ?_, ?_⟩
  · simp [clickByRef, hres, hzero]
  · intro v pe
    simp [fillByRef, hres, hzero]
  · intro vs
    simp [selectByRef, hres, hzero]

/-- C2 witness: concrete instance of the amended statement. -/
theorem c2_witness :
    clickByRef c2map [] (str "0-0")
        = .error (.elementNotFound (str "0-0") (str "button") (str "Go"))
    ∧ fillByRef c2map [] (str "0-0") (str "x") true = .error .timeout
    ∧ selectByRef c2map [] (str "0-0") [] = .error .timeout := by
  have h := c2_amended c2map [] (str "0-0") ⟨str "button", str "Go", 0⟩ rfl rfl
  exact ⟨h.1, h.2.1 (str "x") true, h.2.2 []⟩

/-- C3 counterexample: with stored index 2 and a single live match,
`fillByRef` times out on the nonexistent `nth(2)` locator instead of
falling back to the first match, while `clickByRef` does fall back. -/
theorem c3_counterexample :
    fillByRef c3map c3page (str "0-0") (str "x") true = .error .timeout
    ∧ clickByRef c3map c3page (str "0-0") = .ok 0 :=
  ⟨rfl, rfl⟩

/-- C3 amended: for a resolvable ref with at least one live match,
`clickByRef` selects index `entry.index` when `0 < index < count` and
falls back to the first match otherwise; `fillByRef` and `selectByRef`
have no range check — they target `nth(index)` whenever `index > 0`
(timing out when `index ≥ count`) and the first match only when
`index = 0`. -/
theorem c3_amended (m : List (Str × RefEntry)) (page : List LiveElem) (ref : Str)
    (entry : RefEntry) (hres : resolveRef m ref = .ok entry) :
    (getByRole page entry.role entry.name ≠ [] →
      clickByRef m page ref
        = .ok (if 0 < entry.index
                  ∧ entry.index < (getByRole page entry.role entry.name).length
               then entry.index else 0))
    ∧ (∀ v pe, entry.index = 0 → getByRole page entry.role entry.name ≠ [] →
        fillByRef m page ref v pe = .ok 0)
    ∧ (∀ v pe, 0 < entry.index →
        entry.index < (getByRole page entry.role entry.name).length →
        fillByRef m page ref v pe = .ok entry.index)
    ∧ (∀ v pe, 0 < entry.index →
        (getByRole page entry.role entry.name).length ≤ entry.index →
        fillByRef m page ref v pe = .error .timeout)
    ∧ (∀ vs, entry.index = 0 → getByRole page entry.role entry.name ≠ [] →
        selectByRef m page ref vs = .ok 0)
    ∧ (∀ vs, 0 < entry.index →
        entry.index < (getByRole page entry.role entry.name).length →
        selectByRef m page ref vs = .ok entry.index)
    ∧ (∀ vs, 0 < entry.index →
        (getByRole page entry.role entry.name).length ≤ entry.index →
        selectByRef m page ref vs = .error .timeout) := by
  refine ⟨?_, ?_, ?_, ?_, ?_, ?_, ?_⟩
  · intro hne
    have hcount : (getByRole page entry.role entry.name).length ≠ 0 := by
      simpa [List.length_eq_zero] using hne
    simp only [clickByRef, hres, hcount, ite_false, if_neg hcount]
    split <;> rfl
  · intro v pe hidx hne
    have hcount : 0 < (getByRole page entry.role entry.name).length :=
      List.length_pos.mpr hne
    simp [fillByRef, hres, hidx, hcount]
  · intro v pe hpos hlt
    simp [fillByRef, hres, hpos, hlt]
  · intro v pe hpos hge
    simp [fillByRef, hres, hpos, Nat.not_lt.mpr hge]
  · intro vs hidx hne
    have hcount : 0 < (getByRole page entry.role entry.name).length :=
      List.length_pos.mpr hne
    simp [selectByRef, hres, hidx, hcount]
  · intro vs hpos hlt
    simp [selectByRef, hres, hpos, hlt]
  · intro vs hpos hge
    simp [selectByRef, hres, hpos, Nat.not_lt.mpr hge]

/-- C3 witness: concrete instance of the amended statement. -/
theorem c3_witness :
    fillByRef c3map c3page (str "0-0") (str "x") true = .error .timeout
    ∧ clickByRef c3map c3page (str "0-0")
        = .ok (if 0 < (2 : Nat) ∧ (2 : Nat) < (getByRole c3page (str "button") (str "Save")).length
               then 2 else 0) := by
  have h := c3_amended c3map c3page (str "0-0") ⟨str "button", str "Save", 2⟩ rfl
  exact ⟨h.2.2.2.1 (str "x") true (by decide) (by decide), h.1 (by decide)⟩

/-- C4 counterexample: compaction shifts pre-order positions, so the literal
token sets differ between the two modes — `0-1` is an interactive token in
compact mode but not in full mode. -/
theorem c4_counterexample :
    interactiveTokens (bbSnapshot c4nodes true []).2 = [str "0-1", str "0-2"]
    ∧ interactiveTokens (bbSnapshot c4nodes false []).2 = [str "0-2", str "0-3"]
    ∧ str "0-1" ∈ interactiveTokens (bbSnapshot c4nodes true []).2
    ∧ str "0-1" ∉ interactiveTokens (bbSnapshot c4nodes false []).2 :=
  ⟨rfl, rfl, by decide, by decide⟩

/-- C4 amended: for every raw node input, the sequence of `(role, name)`
pairs of the nodes with interactive roles that receive refs is identical
with compact mode on and off — the same interactive nodes survive, in the
same order, though the literal token strings may shift. -/
theorem c4_amended (nodes : List CDPAXNode) :
    interactiveRN (bbSnapshot nodes true []).2
      = interactiveRN (bbSnapshot nodes false []).2 := by
  cases nodes with
  | nil => rfl
  | cons r rest =>
    have key := convert_iRN (buildNodeMap (r :: rest)) ((r :: rest).length + 1) r
    cases ht : convert (buildNodeMap (r :: rest)) true ((r :: rest).length + 1) r with
    | none =>
      cases hf : convert (buildNodeMap (r :: rest)) false ((r :: rest).length + 1) r with
      | none =>
        rw [bbSnapshot_none _ _ _ (by rw [cdpNodesToTree_cons, ht]),
            bbSnapshot_none _ _ _ (by rw [cdpNodesToTree_cons, hf])]
      | some tf =>
        rw [bbSnapshot_none _ _ _ (by rw [cdpNodesToTree_cons, ht]),
            bbSnapshot_some _ _ _ _ (by rw [cdpNodesToTree_cons, hf])]
        rw [ht, hf] at key
        simp only [iRNopt] at key
        rw [interactiveRN_buildRefTree, ← key]
        rfl
    | some tt =>
      cases hf : convert (buildNodeMap (r :: rest)) false ((r :: rest).length + 1) r with
      | none =>
        rw [bbSnapshot_some _ _ _ _ (by rw [cdpNodesToTree_cons, ht]),
            bbSnapshot_none _ _ _ (by rw [cdpNodesToTree_cons, hf])]
        rw [ht, hf] at key
        simp only [iRNopt] at key
        rw [interactiveRN_buildRefTree, key]
        rfl
      | some tf =>
        rw [bbSnapshot_some _ _ _ _ (by rw [cdpNodesToTree_cons, ht]),
            bbSnapshot_some _ _ _ _ (by rw [cdpNodesToTree_cons, hf])]
        rw [ht, hf] at key
        simp only [iRNopt] at key
        rw [interactiveRN_buildRefTree, interactiveRN_buildRefTree, key]

/-- C5 counterexample: a snapshot whose raw node list is empty returns
`(empty page)` without clearing or rebuilding the table — the previous
table survives and its refs still resolve. -/
theorem c5_counterexample :
    (bbSnapshot [] true (bbSnapshot c1nodes true []).2).2
        = (bbSnapshot c1nodes true []).2
    ∧ (bbSnapshot c1nodes true []).2 ≠ []
    ∧ resolveRef (bbSnapshot [] true (bbSnapshot c1nodes true []).2).2 (str "0-1")
        = .ok ⟨str "button", str "Go", 0⟩ :=
  ⟨rfl, by decide, rfl⟩

/-- C5 amended: a snapshot whose normalized tree is non-empty discards the
previous table entirely and rebuilds from the new tree alone; resolving any
well-formed token absent from the new table then fails with the
ref-not-found error (a snapshot of an empty tree instead leaves the
previous table in place). -/
theorem c5_amended (nodes : List CDPAXNode) (compact : Bool)
    (prev : List (Str × RefEntry)) (t : AXNode)
    (h : cdpNodesToTree nodes compact = some t) :
    (bbSnapshot nodes compact prev).2 = (buildRefTree t).2
    ∧ ∀ (tok : Str) (k : Nat), tok = refToken k →
        getAssoc (bbSnapshot nodes compact prev).2 tok = none →
        resolveRef (bbSnapshot nodes compact prev).2 tok
          = .error (.refNotFound tok) := by
  constructor
  · rw [bbSnapshot_some _ _ _ _ h]
  · intro tok k hk habs
    refine (resolveRef_err _ _).mpr ?_
    subst hk
    rw [cleanRef_bare]
    exact habs

/-- C5 witness: concrete instance of the amended statement. -/
theorem c5_witness :
    (bbSnapshot c1nodes true c5prev).2 = (buildRefTree c1tree).2
    ∧ resolveRef (bbSnapshot c1nodes true c5prev).2 (str "0-5")
        = .error (.refNotFound (str "0-5")) := by
  have h := c5_amended c1nodes true c5prev c1tree rfl
  exact ⟨h.1, h.2 (str "0-5") 5 (by decide) (by decide)⟩

/-- C6 confirmed: in compact mode a non-ignored node whose role is in the
structural-noise set and whose name is empty is replaced by the result of
`compactFold` on its surviving children — its single surviving child when
there is exactly one, nothing when there are none, a `group` node with
empty name holding all of them when there are two or more — while a
non-ignored node with a non-empty name or a role outside the set is never
elided: conversion yields a node with exactly its role and name. -/
theorem c6_convert_elision (m : List (Str × CDPAXNode)) (fuel : Nat) (n : CDPAXNode)
    (hig : n.ignored = false) :
    ((n.role.getD (str "unknown") ∈ SKIP_ROLES ∧ n.name.getD [] = []) →
        convert m true (fuel + 1) n
          = compactFold (n.childIds.filterMap
              (fun cid => (getAssoc m cid).bind (convert m true fuel))))
    ∧ (¬(n.role.getD (str "unknown") ∈ SKIP_ROLES ∧ n.name.getD [] = []) →
        (convert m true (fuel + 1) n).map AXNode.role
            = some (n.role.getD (str "unknown"))
        ∧ (convert m true (fuel + 1) n).map AXNode.name = some (n.name.getD []))
    ∧ (∀ cs : List AXNode,
        (compactFold cs = none ↔ cs = [])
        ∧ (∀ c, compactFold [c] = some c)
        ∧ (2 ≤ cs.length →
            compactFold cs
              = some (AXNode.mk (str "group") [] none none false false cs))) := by
  refine ⟨?_, ?_, ?_⟩
  · intro hskip
    simp only [convert, hig, Bool.false_eq_true, ite_false]
    rw [if_pos (by exact ⟨trivial, hskip.1, hskip.2⟩)]
  · intro hskip
    simp only [convert, hig, Bool.false_eq_true, ite_false]
    rw [if_neg (fun hc => hskip ⟨hc.2.1, hc.2.2⟩)]
    exact ⟨by simp [AXNode.role], by simp [AXNode.name]⟩
  · intro cs
    refine ⟨?_, fun c => rfl, ?_⟩
    · match cs with
      | [] => simp [compactFold]
      | [c] => simp [compactFold]
      | a :: b :: rest => simp [compactFold]
    · intro hlen
      match cs with
      | [] => simp at hlen
      | [c] => simp at hlen
      | a :: b :: rest => rfl

/-- C6 witness: the generic wrapper of the end-to-end example is elided via
`compactFold`, which splices out its single surviving child. -/
theorem c6_witness :
    convert c6map true 2 c6gen
      = compactFold (c6gen.childIds.filterMap
          (fun cid => (getAssoc c6map cid).bind (convert c6map true 1)))
    ∧ convert c6map true 2 c6gen
      = some (.mk (str "button") (str "Go") none none false false []) := by
  have h := (c6_convert_elision c6map 1 c6gen rfl).1 ⟨by decide, rfl⟩
  exact ⟨h, by rw [h]; rfl⟩

/-- C7 counterexample: the counter keys on the string `role ++ "::" ++ name`,
which is not injective in the pair — role `a::b` with empty name collides
with role `a` and name `b::`, so the third visited node stores index 1
although zero previously visited nodes share its `(role, name)` pair. -/
theorem c7_counterexample :
    ((buildRefTree colTree).2.map (fun p => (p.2.role, p.2.name, p.2.index))).getD 2
        ([], [], 0)
      = (str "a", str "b::", 1)
    ∧ countRN ((buildRefTree colTree).2.take 2) (str "a") (str "b::") = 0 :=
  ⟨rfl, rfl⟩

/-- C7 amended: each stored entry's disambiguation index equals the number
of previously visited nodes in the same walk whose role key
`role ++ "::" ++ name` coincides with its own (counter read before
increment, counters reset at walk start); this agrees with counting equal
`(role, name)` pairs whenever no two distinct pairs produce the same key,
and in particular three sibling `Save` buttons store indices 0, 1, 2 in
document order. -/
theorem c7_amended (t : AXNode) (i : Nat) (h : i < (buildRefTree t).2.length) :
    ((buildRefTree t).2.get ⟨i, h⟩).2.index
      = tallyKey ((buildRefTree t).2.take i) (keyOf ((buildRefTree t).2.get ⟨i, h⟩).2) :=
  buildRefTree_entriesOK t i h

/-- C7 witness: the third `Save` button (walk position 3) stores index 2,
the tally of the two earlier `Save` buttons. -/
theorem c7_witness :
    ((buildRefTree saveTree).2.get ⟨3, by decide⟩).2.index
      = tallyKey ((buildRefTree saveTree).2.take 3)
          (keyOf ((buildRefTree saveTree).2.get ⟨3, by decide⟩).2)
    ∧ ((buildRefTree saveTree).2.map (fun p => p.2.index)) = [0, 0, 1, 2] :=
  ⟨c7_amended saveTree 3 (by decide), rfl⟩

/-- C8 confirmed: the snapshot build is a pure function of the raw nodes and
the compact flag — running the snapshot again over the unchanged input and
the table state left by the first run reproduces the identical text and the
identical ref table. -/
theorem c8_deterministic (nodes : List CDPAXNode) (compact : Bool)
    (s : List (Str × RefEntry)) :
    bbSnapshot nodes compact (bbSnapshot nodes compact s).2
      = bbSnapshot nodes compact s := by
  cases h : cdpNodesToTree nodes compact with
  | none => simp [bbSnapshot_none nodes compact _ h]
  | some t => simp [bbSnapshot_some nodes compact _ t h]

/-- C9 confirmed: the resolver accepts exactly a bare token, an `@`-prefixed
token, or a case-insensitively `ref=`-prefixed token, strips the accepted
prefix, and fails with the ref-not-found error (telling the caller to
re-snapshot) precisely when the cleaned token is absent from the table. -/
theorem c9_resolveRef_forms :
    (∀ t, cleanRef ('@' :: t) = t)
    ∧ (∀ p t, p ∈ refPrefixForms → cleanRef (p ++ t) = t)
    ∧ (∀ k, cleanRef (refToken k) = refToken k)
    ∧ (∀ m r, resolveRef m r = .error (.refNotFound r)
        ↔ getAssoc m (cleanRef r) = none)
    ∧ (∀ m r e, resolveRef m r = .ok e ↔ getAssoc m (cleanRef r) = some e) :=
  ⟨cleanRef_at, cleanRef_refPrefix, cleanRef_bare, resolveRef_err, resolveRef_ok⟩

/-- C9 witness: concrete instances of each accepted surface form and of the
failure characterization. -/
theorem c9_witness :
    cleanRef (str "REF=" ++ str "0-1") = str "0-1"
    ∧ cleanRef ('@' :: str "0-1") = str "0-1"
    ∧ resolveRef [] (str "0-7") = .error (.refNotFound (str "0-7")) := by
  refine ⟨c9_resolveRef_forms.2.1 (str "REF=") (str "0-1") (by decide),
          c9_resolveRef_forms.1 (str "0-1"), ?_⟩
  exact (c9_resolveRef_forms.2.2.2.1 [] (str "0-7")).mpr rfl

/-- C10 confirmed: the snapshot walk stores one ref entry per visited node —
the key list is exactly `0-0 … 0-(n-1)` in pre-order, the recorded
`(role, name)` pairs are the pre-order pairs of the tree, one display line
is emitted per node, and every token (interactive or not) resolves. -/
theorem c10_allNodesRef (t : AXNode) :
    (buildRefTree t).2.map Prod.fst = (List.range (sizeT t)).map refToken
    ∧ (buildRefTree t).2.length = sizeT t
    ∧ (buildRefTree t).2.map rnOf = rnT t
    ∧ (walk t 0 initState).lines.length = sizeT t
    ∧ (∀ k, k < sizeT t →
        ∃ e, resolveRef (buildRefTree t).2 (refToken k) = .ok e) := by
  refine ⟨buildRefTree_tokens t, buildRefTree_length t, buildRefTree_rn t,
          buildRefTree_linesLength t, ?_⟩
  intro k hk
  have hmem : refToken k ∈ (buildRefTree t).2.map Prod.fst := by
    rw [buildRefTree_tokens]
    exact List.mem_map_of_mem refToken (List.mem_range.mpr hk)
  obtain ⟨v, hv⟩ := getAssoc_isSome_of_mem _ _ hmem
  exact ⟨v, (resolveRef_ok _ _ v).mpr (by rw [cleanRef_bare]; exact hv)⟩

/-- C10 witness: the non-interactive root of the example tree resolves. -/
theorem c10_witness :
    ∃ e, resolveRef (buildRefTree c1tree).2 (refToken 0) = .ok e :=
  (c10_allNodesRef c1tree).2.2.2.2 0 (by decide)

end BrowsePlugin
